import Mathlib

/-!
Verification of the exponential-integral library (E1 / Ei, GSL-style
Chebyshev approximation) against its natural-language specification.

The Rust source operates on finite, NaN-free doubles wrapped in sigma
types (Finite, NonZero, Negative, Positive, NonNegative).  The shallow
embedding models those values as rationals: every arithmetic operation
the routing and bookkeeping claims depend on (negation, comparison,
field arithmetic, absolute value) is exact on both carriers, and the
finiteness precondition means comparisons are total.  The transcendental
calls (libm::exp, f64::ln) and the coefficient tables missing from the
sources are opaque parameters, collected in a context structure.
-/

namespace ExpInt

namespace constants

/-- GSL_DBL_EPSILON, the double-precision machine epsilon constant
from src/constants.rs, as an exact rational. -/
def GSL_DBL_EPSILON : ℚ := 22204460492503131 / 10 ^ 32

/-- XMAX from src/constants.rs: the maximum safe positive argument,
701.8334146821. -/
def XMAX : ℚ := 7018334146821 / 10 ^ 10

/-- NXMAX from src/constants.rs: the negation of XMAX. -/
def NXMAX : ℚ := -XMAX

/-- The AE11 coefficient table from src/constants.rs (39 entries),
written as exact decimal rationals. -/
def AE11 : List ℚ := [
  0.121503239716065790,
  -0.065088778513550150,
  0.004897651357459670,
  -0.000649237843027216,
  0.000093840434587471,
  0.000000420236380882,
  -0.000008113374735904,
  0.000002804247688663,
  0.000000056487164441,
  -0.000000344809174450,
  0.000000058209273578,
  0.000000038711426349,
  -0.000000012453235014,
  -0.000000005118504888,
  0.000000002148771527,
  0.000000000868459898,
  -0.000000000343650105,
  -0.000000000179796603,
  0.000000000047442060,
  0.000000000040423282,
  -0.000000000003543928,
  -0.000000000008853444,
  -0.000000000000960151,
  0.000000000001692921,
  0.000000000000607990,
  -0.000000000000224338,
  -0.000000000000200327,
  -0.000000000000006246,
  0.000000000000045571,
  0.000000000000016383,
  -0.000000000000005561,
  -0.000000000000006074,
  -0.000000000000000862,
  0.000000000000001223,
  0.000000000000000716,
  -0.000000000000000024,
  -0.000000000000000201,
  -0.000000000000000082,
  0.000000000000000017]

end constants

/-- An approximate value alongside an estimate of its own approximation
error, mirroring struct Approx in src/lib.rs (field order as in the
source: error first, then value). -/
structure Approx where
  error : ℚ
  value : ℚ
deriving DecidableEq, Repr

/-- Modelled from the spec: the collaborators that the sources under
src/ reference but do not define.  The coefficient tables E11, E12,
AE12, AE13 and AE14 live in the (absent) remainder of constants.rs; the
spec directs that the table literals be treated as opaque lookup data,
so they are opaque fields here (AE11 is present in src/constants.rs and
is kept concrete).  The fields exp and ln stand for the external
transcendental functions libm::exp, f64::exp and f64::ln. -/
structure Ctx where
  exp : ℚ → ℚ
  ln : ℚ → ℚ
  E11 : List ℚ
  E12 : List ℚ
  AE12 : List ℚ
  AE13 : List ℚ
  AE14 : List ℚ

/-- Total comparison of two rationals, modelling f64::partial_cmp on
finite (hence NaN-free) doubles, which always returns Some. -/
def fcmp (a b : ℚ) : Ordering :=
  if a < b then .lt else if a = b then .eq else .gt

theorem fcmp_of_lt {a b : ℚ} (h : a < b) : fcmp a b = .lt := by
  simp [fcmp, h]

theorem fcmp_of_eq {a b : ℚ} (h : a = b) : fcmp a b = .eq := by
  simp [fcmp, h, lt_irrefl]

theorem fcmp_of_gt {a b : ℚ} (h : b < a) : fcmp a b = .gt := by
  simp [fcmp, not_lt.mpr h.le, ne_of_gt h]

/-- Absolute value on the rational carrier, modelling f64::abs (and the
fabs of the original C code). -/
def fabs (q : ℚ) : ℚ := if q < 0 then -q else q

namespace chebyshev

/-- The Clenshaw loop of chebyshev::eval in src/chebyshev.rs: starting
from counter j and state (d, dd, e), run the iterations at indices
j, j - 1, ..., 1 and return the final (d, dd, e).  Each iteration reads
coefficient c[j], sets d to two_x * d - dd + c[j], accumulates
two_x * tmp, dd and c[j] in absolute value into e, and shifts dd. -/
def go (c : List ℚ) (two_x : ℚ) : ℕ → ℚ → ℚ → ℚ → ℚ × ℚ × ℚ
  | 0, d, dd, e => (d, dd, e)
  | j + 1, d, dd, e =>
      go c two_x j (two_x * d - dd + c.getD (j + 1) 0) d
        (e + (fabs (two_x * d) + fabs dd + fabs (c.getD (j + 1) 0)))

/-- chebyshev::eval from src/chebyshev.rs, in the build with both the
error and the precision features: Clenshaw recurrence from the given
truncation order down to 1, a final half-weighted step for c[0], value
equal to the final d, and error equal to
GSL_DBL_EPSILON * e + the absolute value of the last table coefficient
(index N - 1, independent of the supplied order). -/
def eval (c : List ℚ) (x : ℚ) (order : ℕ) : Approx :=
  let two_x := 2 * x
  let s := go c two_x order 0 0 0
  let d := s.1
  let dd := s.2.1
  let e := s.2.2
  let half_coefficient := 0.5 * c.getD 0 0
  let value := x * d - dd + half_coefficient
  let e₂ := e + (fabs (x * d) + fabs dd + fabs half_coefficient)
  let last_coefficient := c.getD (c.length - 1) 0
  { value := value
    error := constants.GSL_DBL_EPSILON * e₂ + fabs last_coefficient }

/-- The accumulated absolute-value sum e of the Clenshaw recurrence of
chebyshev::eval, after the final half-weighted step (the quantity the
spec calls e in its error formula). -/
def eAcc (c : List ℚ) (x : ℚ) (order : ℕ) : ℚ :=
  let two_x := 2 * x
  let s := go c two_x order 0 0 0
  s.2.2 + (fabs (x * s.1) + fabs s.2.1 + fabs (0.5 * c.getD 0 0))

/-- The Clenshaw loop of the build without the error feature: only
(d, dd) are threaded, the e accumulation lines are compiled out. -/
def goV (c : List ℚ) (two_x : ℚ) : ℕ → ℚ → ℚ → ℚ × ℚ
  | 0, d, dd => (d, dd)
  | j + 1, d, dd => goV c two_x j (two_x * d - dd + c.getD (j + 1) 0) d

/-- chebyshev::eval in the build without the error feature: the same
recurrence, returning only the value. -/
def evalV (c : List ℚ) (x : ℚ) (order : ℕ) : ℚ :=
  let two_x := 2 * x
  let s := goV c two_x order 0 0
  x * s.1 - s.2 + 0.5 * c.getD 0 0

/-- chebyshev::eval in the build without the precision feature: the
truncation order is pinned to N - 1 at compile time. -/
def evalFull (c : List ℚ) (x : ℚ) : Approx :=
  eval c x (c.length - 1)

/-- The Clenshaw loop with every get_unchecked access replaced by a
checked lookup: the out-of-bounds case (undefined behaviour in the
source) is represented by none. -/
def goChecked (c : List ℚ) (two_x : ℚ) : ℕ → ℚ → ℚ → ℚ → Option (ℚ × ℚ × ℚ)
  | 0, d, dd, e => some (d, dd, e)
  | j + 1, d, dd, e => do
      let cj ← c.get? (j + 1)
      goChecked c two_x j (two_x * d - dd + cj) d (e + (fabs (two_x * d) + fabs dd + fabs cj))

/-- chebyshev::eval with each of its three unchecked accesses
(coefficients[j] in the loop, coefficients[0], and the last coefficient)
replaced by a checked lookup; none models an out-of-bounds access. -/
def evalChecked (c : List ℚ) (x : ℚ) (order : ℕ) : Option Approx := do
  let two_x := 2 * x
  let s ← goChecked c two_x order 0 0 0
  let c0 ← c.get? 0
  let half_coefficient := 0.5 * c0
  let value := x * s.1 - s.2.1 + half_coefficient
  let e₂ := s.2.2 + (fabs (x * s.1) + fabs s.2.1 + fabs half_coefficient)
  let last_coefficient ← c.get? (c.length - 1)
  pure { value := value
         error := constants.GSL_DBL_EPSILON * e₂ + fabs last_coefficient }

end chebyshev

namespace piecewise

/-- piecewise::le_neg_1 from src/implementation.rs ((-4, -1]):
ln_term = -ln|x|, Chebyshev series E11 at (2x + 5)/3, value =
ln_term + cheb.value, error = cheb.error + eps * |ln_term|
+ 2 * eps * fabs value.  The truncation order is the supplied maximum
precision clamped to the table length minus one. -/
def le_neg_1 (ctx : Ctx) (x : ℚ) (max_precision : ℕ) : Approx :=
  let nln := -(ctx.ln (fabs x))
  let cheb := chebyshev.eval ctx.E11 ((2 * x + 5) / 3)
    (min max_precision (ctx.E11.length - 1))
  let value := nln + cheb.value
  let epsilon := constants.GSL_DBL_EPSILON
  let init_err := cheb.error + epsilon * fabs nln
  let addl_err := 2 * epsilon * fabs value
  { value := value, error := init_err + addl_err }

/-- piecewise::le_neg_10 from src/implementation.rs ((-XMAX, -10]):
s = (1/x) * exp(-x), Chebyshev series AE11 (concrete in
src/constants.rs) at 20/x + 1, value = s * (1 + cheb.value), error =
s * cheb.error + 2 * eps * (fabs x + 1) * fabs value. -/
def le_neg_10 (ctx : Ctx) (x : ℚ) (max_precision : ℕ) : Approx :=
  let s := (1 / x) * ctx.exp (-x)
  let cheb := chebyshev.eval constants.AE11 (20 / x + 1)
    (min max_precision (constants.AE11.length - 1))
  let value := s * (1 + cheb.value)
  let init_err := s * cheb.error
  let addl_err := 2 * constants.GSL_DBL_EPSILON * (fabs x + 1) * fabs value
  { value := value, error := init_err + addl_err }

/-- piecewise::le_neg_4 from src/implementation.rs ((-10, -4]):
s = (1/x) * exp(-x), Chebyshev series AE12 at (40/x + 7)/3, value =
s * (1 + cheb.value), error = s * cheb.error + 2 * eps * fabs value. -/
def le_neg_4 (ctx : Ctx) (x : ℚ) (max_precision : ℕ) : Approx :=
  let s := (1 / x) * ctx.exp (-x)
  let cheb := chebyshev.eval ctx.AE12 ((40 / x + 7) / 3)
    (min max_precision (ctx.AE12.length - 1))
  let value := s * (1 + cheb.value)
  let init_err := s * cheb.error
  let addl_err := 2 * constants.GSL_DBL_EPSILON * fabs value
  { value := value, error := init_err + addl_err }

/-- piecewise::le_pos_1 from src/implementation.rs ((-1, 1] without 0):
ln_term = -ln|x|, Chebyshev series E12 at x itself, value =
ln_term - 0.6875 + x + cheb.value, error = cheb.error + eps * |ln_term|
+ 2 * eps * fabs value. -/
def le_pos_1 (ctx : Ctx) (x : ℚ) (max_precision : ℕ) : Approx :=
  let nln := -(ctx.ln (fabs x))
  let cheb := chebyshev.eval ctx.E12 x
    (min max_precision (ctx.E12.length - 1))
  let value := nln - 0.6875 + x + cheb.value
  let epsilon := constants.GSL_DBL_EPSILON
  let init_err := cheb.error + epsilon * fabs nln
  let addl_err := 2 * epsilon * fabs value
  { value := value, error := init_err + addl_err }

/-- piecewise::le_pos_4 from src/implementation.rs ((1, 4]):
s = (1/x) * exp(-x), Chebyshev series AE13 at (8/x - 5)/3, value =
s * (1 + cheb.value), error = s * cheb.error + 2 * eps * fabs value. -/
def le_pos_4 (ctx : Ctx) (x : ℚ) (max_precision : ℕ) : Approx :=
  let s := (1 / x) * ctx.exp (-x)
  let cheb := chebyshev.eval ctx.AE13 ((8 / x - 5) / 3)
    (min max_precision (ctx.AE13.length - 1))
  let value := s * (1 + cheb.value)
  let init_err := s * cheb.error
  let addl_err := 2 * constants.GSL_DBL_EPSILON * fabs value
  { value := value, error := init_err + addl_err }

/-- piecewise::le_pos_max from src/implementation.rs ((4, XMAX)):
s = (1/x) * exp(-x), Chebyshev series AE14 at 8/x - 1, value =
s * (1 + cheb.value), error = s * (eps + cheb.error)
+ 2 * (x + 1) * eps * fabs value. -/
def le_pos_max (ctx : Ctx) (x : ℚ) (max_precision : ℕ) : Approx :=
  let s := (1 / x) * ctx.exp (-x)
  let cheb := chebyshev.eval ctx.AE14 (8 / x - 1)
    (min max_precision (ctx.AE14.length - 1))
  let value := s * (1 + cheb.value)
  let epsilon := constants.GSL_DBL_EPSILON
  let init_err := s * (epsilon + cheb.error)
  let addl_err := 2 * (x + 1) * epsilon * fabs value
  { value := value, error := init_err + addl_err }

end piecewise

/-- neg::HugeArgument from src/lib.rs: the one-sided domain error for
negative inputs, carrying the offending value. -/
structure HugeArgumentNeg where
  arg : ℚ
deriving DecidableEq, Repr

/-- pos::HugeArgument from src/lib.rs: the one-sided domain error for
positive inputs, carrying the offending value. -/
structure HugeArgumentPos where
  arg : ℚ
deriving DecidableEq, Repr

/-- The two-variant error taxonomy from src/lib.rs. -/
inductive Error where
  | ArgumentTooNegative (arg : ℚ)
  | ArgumentTooPositive (arg : ℚ)
deriving DecidableEq, Repr

namespace implementation

/-- implementation::neg::E1 from src/implementation.rs: the router for
negative inputs, comparing x against -10, NXMAX, -4 and -1 exactly as
the source's nested matches on partial_cmp do. -/
def negE1 (ctx : Ctx) (x : ℚ) (max_precision : ℕ) :
    Except HugeArgumentNeg Approx :=
  match fcmp x (-10) with
  | .eq => .ok (piecewise.le_neg_10 ctx x max_precision)
  | .lt =>
      match fcmp x constants.NXMAX with
      | .gt => .ok (piecewise.le_neg_10 ctx x max_precision)
      | .lt => .error ⟨x⟩
      | .eq => .error ⟨x⟩
  | .gt =>
      .ok (match fcmp x (-4) with
        | .lt => piecewise.le_neg_4 ctx x max_precision
        | .eq => piecewise.le_neg_4 ctx x max_precision
        | .gt =>
            match fcmp x (-1) with
            | .lt => piecewise.le_neg_1 ctx x max_precision
            | .eq => piecewise.le_neg_1 ctx x max_precision
            | .gt => piecewise.le_pos_1 ctx x max_precision)

/-- implementation::pos::E1 from src/implementation.rs: the router for
positive inputs, comparing x against 4, 1 and XMAX exactly as the
source's nested matches on partial_cmp do. -/
def posE1 (ctx : Ctx) (x : ℚ) (max_precision : ℕ) :
    Except HugeArgumentPos Approx :=
  match fcmp x 4 with
  | .eq => .ok (piecewise.le_pos_4 ctx x max_precision)
  | .lt =>
      .ok (match fcmp x 1 with
        | .lt => piecewise.le_pos_1 ctx x max_precision
        | .eq => piecewise.le_pos_1 ctx x max_precision
        | .gt => piecewise.le_pos_4 ctx x max_precision)
  | .gt =>
      match fcmp x constants.XMAX with
      | .lt => .ok (piecewise.le_pos_max ctx x max_precision)
      | .eq => .error ⟨x⟩
      | .gt => .error ⟨x⟩

/-- The value returned by the source's unreachable_unchecked branch in
implementation::E1 (undefined behaviour, excluded by the nonzero
precondition); an arbitrary fixed result standing in for it. -/
def unreachableE1 : Except Error Approx :=
  .error (.ArgumentTooNegative 0)

/-- implementation::E1 from src/implementation.rs: sign dispatch to the
one-sided routers, merging the one-sided error types into the
two-variant taxonomy.  The x = 0 case is unreachable_unchecked in the
source. -/
def E1 (ctx : Ctx) (x : ℚ) (max_precision : ℕ) : Except Error Approx :=
  match fcmp x 0 with
  | .lt =>
      (negE1 ctx x max_precision).mapError
        fun h => Error.ArgumentTooNegative h.arg
  | .gt =>
      (posE1 ctx x max_precision).mapError
        fun h => Error.ArgumentTooPositive h.arg
  | .eq => unreachableE1

end implementation

/-- Top-level E1 from src/lib.rs: a thin wrapper over the
implementation router. -/
def E1 (ctx : Ctx) (x : ℚ) (max_precision : ℕ) : Except Error Approx :=
  implementation.E1 ctx x max_precision

/-- Top-level Ei from src/lib.rs: E1 at -x with the value negated; the
error bound and any domain error are passed through unchanged. -/
def Ei (ctx : Ctx) (x : ℚ) (max_precision : ℕ) : Except Error Approx :=
  (E1 ctx (-x) max_precision).map fun a => { a with value := -a.value }

/-- neg::Ei from src/lib.rs: for negative x, pos::E1 at -x with the
value negated and the one-sided error mapped back into the caller's
sign convention (the carried argument is negated). -/
def negEi (ctx : Ctx) (x : ℚ) (max_precision : ℕ) :
    Except HugeArgumentNeg Approx :=
  ((implementation.posE1 ctx (-x) max_precision).map
      fun a => { a with value := -a.value }).mapError
    fun h => ⟨-h.arg⟩

/-- pos::Ei from src/lib.rs: for positive x, neg::E1 at -x with the
value negated and the one-sided error mapped back into the caller's
sign convention (the carried argument is negated). -/
def posEi (ctx : Ctx) (x : ℚ) (max_precision : ℕ) :
    Except HugeArgumentPos Approx :=
  ((implementation.negE1 ctx (-x) max_precision).map
      fun a => { a with value := -a.value }).mapError
    fun h => ⟨-h.arg⟩

namespace piecewise

/-- le_neg_1 in the build without the error feature: only the value is
computed; every cfg(feature error) line of the source is dropped. -/
def le_neg_1V (ctx : Ctx) (x : ℚ) (max_precision : ℕ) : ℚ :=
  let nln := -(ctx.ln (fabs x))
  nln + chebyshev.evalV ctx.E11 ((2 * x + 5) / 3)
    (min max_precision (ctx.E11.length - 1))

/-- le_neg_10 in the build without the error feature. -/
def le_neg_10V (ctx : Ctx) (x : ℚ) (max_precision : ℕ) : ℚ :=
  let s := (1 / x) * ctx.exp (-x)
  s * (1 + chebyshev.evalV constants.AE11 (20 / x + 1)
    (min max_precision (constants.AE11.length - 1)))

/-- le_neg_4 in the build without the error feature. -/
def le_neg_4V (ctx : Ctx) (x : ℚ) (max_precision : ℕ) : ℚ :=
  let s := (1 / x) * ctx.exp (-x)
  s * (1 + chebyshev.evalV ctx.AE12 ((40 / x + 7) / 3)
    (min max_precision (ctx.AE12.length - 1)))

/-- le_pos_1 in the build without the error feature. -/
def le_pos_1V (ctx : Ctx) (x : ℚ) (max_precision : ℕ) : ℚ :=
  let nln := -(ctx.ln (fabs x))
  nln - 0.6875 + x + chebyshev.evalV ctx.E12 x
    (min max_precision (ctx.E12.length - 1))

/-- le_pos_4 in the build without the error feature. -/
def le_pos_4V (ctx : Ctx) (x : ℚ) (max_precision : ℕ) : ℚ :=
  let s := (1 / x) * ctx.exp (-x)
  s * (1 + chebyshev.evalV ctx.AE13 ((8 / x - 5) / 3)
    (min max_precision (ctx.AE13.length - 1)))

/-- le_pos_max in the build without the error feature. -/
def le_pos_maxV (ctx : Ctx) (x : ℚ) (max_precision : ℕ) : ℚ :=
  let s := (1 / x) * ctx.exp (-x)
  s * (1 + chebyshev.evalV ctx.AE14 (8 / x - 1)
    (min max_precision (ctx.AE14.length - 1)))

/-- le_neg_1 in the build without the precision feature: the evaluator
always runs at the table's native order N - 1. -/
def le_neg_1Full (ctx : Ctx) (x : ℚ) : Approx :=
  let nln := -(ctx.ln (fabs x))
  let cheb := chebyshev.evalFull ctx.E11 ((2 * x + 5) / 3)
  let value := nln + cheb.value
  let epsilon := constants.GSL_DBL_EPSILON
  let init_err := cheb.error + epsilon * fabs nln
  let addl_err := 2 * epsilon * fabs value
  { value := value, error := init_err + addl_err }

/-- le_neg_10 in the build without the precision feature. -/
def le_neg_10Full (ctx : Ctx) (x : ℚ) : Approx :=
  let s := (1 / x) * ctx.exp (-x)
  let cheb := chebyshev.evalFull constants.AE11 (20 / x + 1)
  let value := s * (1 + cheb.value)
  let init_err := s * cheb.error
  let addl_err := 2 * constants.GSL_DBL_EPSILON * (fabs x + 1) * fabs value
  { value := value, error := init_err + addl_err }

/-- le_neg_4 in the build without the precision feature. -/
def le_neg_4Full (ctx : Ctx) (x : ℚ) : Approx :=
  let s := (1 / x) * ctx.exp (-x)
  let cheb := chebyshev.evalFull ctx.AE12 ((40 / x + 7) / 3)
  let value := s * (1 + cheb.value)
  let init_err := s * cheb.error
  let addl_err := 2 * constants.GSL_DBL_EPSILON * fabs value
  { value := value, error := init_err + addl_err }

/-- le_pos_1 in the build without the precision feature. -/
def le_pos_1Full (ctx : Ctx) (x : ℚ) : Approx :=
  let nln := -(ctx.ln (fabs x))
  let cheb := chebyshev.evalFull ctx.E12 x
  let value := nln - 0.6875 + x + cheb.value
  let epsilon := constants.GSL_DBL_EPSILON
  let init_err := cheb.error + epsilon * fabs nln
  let addl_err := 2 * epsilon * fabs value
  { value := value, error := init_err + addl_err }

/-- le_pos_4 in the build without the precision feature. -/
def le_pos_4Full (ctx : Ctx) (x : ℚ) : Approx :=
  let s := (1 / x) * ctx.exp (-x)
  let cheb := chebyshev.evalFull ctx.AE13 ((8 / x - 5) / 3)
  let value := s * (1 + cheb.value)
  let init_err := s * cheb.error
  let addl_err := 2 * constants.GSL_DBL_EPSILON * fabs value
  { value := value, error := init_err + addl_err }

/-- le_pos_max in the build without the precision feature. -/
def le_pos_maxFull (ctx : Ctx) (x : ℚ) : Approx :=
  let s := (1 / x) * ctx.exp (-x)
  let cheb := chebyshev.evalFull ctx.AE14 (8 / x - 1)
  let value := s * (1 + cheb.value)
  let epsilon := constants.GSL_DBL_EPSILON
  let init_err := s * (epsilon + cheb.error)
  let addl_err := 2 * (x + 1) * epsilon * fabs value
  { value := value, error := init_err + addl_err }

/-- le_neg_1 with its evaluator call replaced by the checked evaluator:
none models an out-of-bounds coefficient access. -/
def le_neg_1Checked (ctx : Ctx) (x : ℚ) (max_precision : ℕ) : Option Approx :=
  (chebyshev.evalChecked ctx.E11 ((2 * x + 5) / 3)
      (min max_precision (ctx.E11.length - 1))).map fun cheb =>
    let nln := -(ctx.ln (fabs x))
    let value := nln + cheb.value
    let epsilon := constants.GSL_DBL_EPSILON
    { value := value
      error := cheb.error + epsilon * fabs nln + 2 * epsilon * fabs value }

/-- le_neg_10 with its evaluator call replaced by the checked
evaluator. -/
def le_neg_10Checked (ctx : Ctx) (x : ℚ) (max_precision : ℕ) : Option Approx :=
  (chebyshev.evalChecked constants.AE11 (20 / x + 1)
      (min max_precision (constants.AE11.length - 1))).map fun cheb =>
    let s := (1 / x) * ctx.exp (-x)
    let value := s * (1 + cheb.value)
    { value := value
      error := s * cheb.error
        + 2 * constants.GSL_DBL_EPSILON * (fabs x + 1) * fabs value }

/-- le_neg_4 with its evaluator call replaced by the checked
evaluator. -/
def le_neg_4Checked (ctx : Ctx) (x : ℚ) (max_precision : ℕ) : Option Approx :=
  (chebyshev.evalChecked ctx.AE12 ((40 / x + 7) / 3)
      (min max_precision (ctx.AE12.length - 1))).map fun cheb =>
    let s := (1 / x) * ctx.exp (-x)
    let value := s * (1 + cheb.value)
    { value := value
      error := s * cheb.error + 2 * constants.GSL_DBL_EPSILON * fabs value }

/-- le_pos_1 with its evaluator call replaced by the checked
evaluator. -/
def le_pos_1Checked (ctx : Ctx) (x : ℚ) (max_precision : ℕ) : Option Approx :=
  (chebyshev.evalChecked ctx.E12 x
      (min max_precision (ctx.E12.length - 1))).map fun cheb =>
    let nln := -(ctx.ln (fabs x))
    let value := nln - 0.6875 + x + cheb.value
    let epsilon := constants.GSL_DBL_EPSILON
    { value := value
      error := cheb.error + epsilon * fabs nln + 2 * epsilon * fabs value }

/-- le_pos_4 with its evaluator call replaced by the checked
evaluator. -/
def le_pos_4Checked (ctx : Ctx) (x : ℚ) (max_precision : ℕ) : Option Approx :=
  (chebyshev.evalChecked ctx.AE13 ((8 / x - 5) / 3)
      (min max_precision (ctx.AE13.length - 1))).map fun cheb =>
    let s := (1 / x) * ctx.exp (-x)
    let value := s * (1 + cheb.value)
    { value := value
      error := s * cheb.error + 2 * constants.GSL_DBL_EPSILON * fabs value }

/-- le_pos_max with its evaluator call replaced by the checked
evaluator. -/
def le_pos_maxChecked (ctx : Ctx) (x : ℚ) (max_precision : ℕ) : Option Approx :=
  (chebyshev.evalChecked ctx.AE14 (8 / x - 1)
      (min max_precision (ctx.AE14.length - 1))).map fun cheb =>
    let s := (1 / x) * ctx.exp (-x)
    let value := s * (1 + cheb.value)
    let epsilon := constants.GSL_DBL_EPSILON
    { value := value
      error := s * (epsilon + cheb.error) + 2 * (x + 1) * epsilon * fabs value }

end piecewise

namespace implementation

/-- neg::E1 in the build without the error feature. -/
def negE1V (ctx : Ctx) (x : ℚ) (max_precision : ℕ) :
    Except HugeArgumentNeg ℚ :=
  match fcmp x (-10) with
  | .eq => .ok (piecewise.le_neg_10V ctx x max_precision)
  | .lt =>
      match fcmp x constants.NXMAX with
      | .gt => .ok (piecewise.le_neg_10V ctx x max_precision)
      | .lt => .error ⟨x⟩
      | .eq => .error ⟨x⟩
  | .gt =>
      .ok (match fcmp x (-4) with
        | .lt => piecewise.le_neg_4V ctx x max_precision
        | .eq => piecewise.le_neg_4V ctx x max_precision
        | .gt =>
            match fcmp x (-1) with
            | .lt => piecewise.le_neg_1V ctx x max_precision
            | .eq => piecewise.le_neg_1V ctx x max_precision
            | .gt => piecewise.le_pos_1V ctx x max_precision)

/-- pos::E1 in the build without the error feature. -/
def posE1V (ctx : Ctx) (x : ℚ) (max_precision : ℕ) :
    Except HugeArgumentPos ℚ :=
  match fcmp x 4 with
  | .eq => .ok (piecewise.le_pos_4V ctx x max_precision)
  | .lt =>
      .ok (match fcmp x 1 with
        | .lt => piecewise.le_pos_1V ctx x max_precision
        | .eq => piecewise.le_pos_1V ctx x max_precision
        | .gt => piecewise.le_pos_4V ctx x max_precision)
  | .gt =>
      match fcmp x constants.XMAX with
      | .lt => .ok (piecewise.le_pos_maxV ctx x max_precision)
      | .eq => .error ⟨x⟩
      | .gt => .error ⟨x⟩

/-- The unreachable branch of implementation::E1 in the build without
the error feature. -/
def unreachableE1V : Except Error ℚ :=
  .error (.ArgumentTooNegative 0)

/-- implementation::E1 in the build without the error feature. -/
def E1V (ctx : Ctx) (x : ℚ) (max_precision : ℕ) : Except Error ℚ :=
  match fcmp x 0 with
  | .lt =>
      (negE1V ctx x max_precision).mapError
        fun h => Error.ArgumentTooNegative h.arg
  | .gt =>
      (posE1V ctx x max_precision).mapError
        fun h => Error.ArgumentTooPositive h.arg
  | .eq => unreachableE1V

/-- neg::E1 with every unchecked operation replaced by a checked one:
the Option layer is none exactly when an unreachable router branch is
executed or a coefficient access is out of bounds. -/
def negE1Checked (ctx : Ctx) (x : ℚ) (max_precision : ℕ) :
    Option (Except HugeArgumentNeg Approx) :=
  match fcmp x (-10) with
  | .eq => (piecewise.le_neg_10Checked ctx x max_precision).map .ok
  | .lt =>
      match fcmp x constants.NXMAX with
      | .gt => (piecewise.le_neg_10Checked ctx x max_precision).map .ok
      | .lt => some (.error ⟨x⟩)
      | .eq => some (.error ⟨x⟩)
  | .gt =>
      (match fcmp x (-4) with
        | .lt => piecewise.le_neg_4Checked ctx x max_precision
        | .eq => piecewise.le_neg_4Checked ctx x max_precision
        | .gt =>
            match fcmp x (-1) with
            | .lt => piecewise.le_neg_1Checked ctx x max_precision
            | .eq => piecewise.le_neg_1Checked ctx x max_precision
            | .gt => piecewise.le_pos_1Checked ctx x max_precision).map .ok

/-- pos::E1 with every unchecked operation replaced by a checked
one. -/
def posE1Checked (ctx : Ctx) (x : ℚ) (max_precision : ℕ) :
    Option (Except HugeArgumentPos Approx) :=
  match fcmp x 4 with
  | .eq => (piecewise.le_pos_4Checked ctx x max_precision).map .ok
  | .lt =>
      (match fcmp x 1 with
        | .lt => piecewise.le_pos_1Checked ctx x max_precision
        | .eq => piecewise.le_pos_1Checked ctx x max_precision
        | .gt => piecewise.le_pos_4Checked ctx x max_precision).map .ok
  | .gt =>
      match fcmp x constants.XMAX with
      | .lt => (piecewise.le_pos_maxChecked ctx x max_precision).map .ok
      | .eq => some (.error ⟨x⟩)
      | .gt => some (.error ⟨x⟩)

/-- implementation::E1 with every unchecked operation replaced by a
checked one: the x = 0 branch is the source's unreachable_unchecked and
maps to none. -/
def E1Checked (ctx : Ctx) (x : ℚ) (max_precision : ℕ) :
    Option (Except Error Approx) :=
  match fcmp x 0 with
  | .lt =>
      (negE1Checked ctx x max_precision).map fun r =>
        r.mapError fun h => Error.ArgumentTooNegative h.arg
  | .gt =>
      (posE1Checked ctx x max_precision).map fun r =>
        r.mapError fun h => Error.ArgumentTooPositive h.arg
  | .eq => none

end implementation

/-- Top-level Ei in the build without the error feature. -/
def EiV (ctx : Ctx) (x : ℚ) (max_precision : ℕ) : Except Error ℚ :=
  (implementation.E1V ctx (-x) max_precision).map fun v => -v

namespace chebyshev

theorem go_fst_snd (c : List ℚ) (t : ℚ) (j : ℕ) :
    ∀ d dd e : ℚ,
      ((go c t j d dd e).1, (go c t j d dd e).2.1) = goV c t j d dd := by
  induction j with
  | zero => intro d dd e; rfl
  | succ j ih =>
      intro d dd e
      simp only [go, goV]
      exact ih _ _ _

/-- The value of chebyshev::eval is computed identically in the build
without the error feature. -/
theorem evalV_eq (c : List ℚ) (x : ℚ) (o : ℕ) :
    evalV c x o = (eval c x o).value := by
  have h := go_fst_snd c (2 * x) o 0 0 0
  simp only [evalV, eval, ← h]

theorem goChecked_eq (c : List ℚ) (t : ℚ) (j : ℕ) (hj : j < c.length) :
    ∀ d dd e : ℚ, goChecked c t j d dd e = some (go c t j d dd e) := by
  induction j with
  | zero => intro d dd e; rfl
  | succ j ih =>
      intro d dd e
      have hget : c.get? (j + 1) = some (c.getD (j + 1) 0) := by
        rw [List.get?_eq_getElem?, List.getElem?_eq_getElem hj,
          List.getD_eq_getElem c 0 hj]
      simp only [goChecked, go, hget, Option.bind_eq_bind, Option.some_bind]
      exact ih (Nat.lt_of_succ_lt hj) _ _ _

/-- The checked evaluator never goes out of bounds (returns some, with
the same result as the unchecked evaluator) whenever the table is
non-empty and the truncation order is within it. -/
theorem evalChecked_eq (c : List ℚ) (x : ℚ) (o : ℕ) (h0 : 0 < c.length)
    (ho : o < c.length) : evalChecked c x o = some (eval c x o) := by
  have hget0 : c.get? 0 = some (c.getD 0 0) := by
    rw [List.get?_eq_getElem?, List.getElem?_eq_getElem h0,
      List.getD_eq_getElem c 0 h0]
  have hlast : c.length - 1 < c.length := Nat.sub_lt h0 Nat.one_pos
  have hgetl : c.get? (c.length - 1) = some (c.getD (c.length - 1) 0) := by
    rw [List.get?_eq_getElem?, List.getElem?_eq_getElem hlast,
      List.getD_eq_getElem c 0 hlast]
  simp only [evalChecked, eval, goChecked_eq c (2 * x) o ho, hget0, hgetl,
    Option.bind_eq_bind, Option.some_bind, Option.pure_def]

end chebyshev

theorem NXMAX_lt_neg_ten : constants.NXMAX < -10 := by
  norm_num [constants.NXMAX, constants.XMAX]

theorem four_lt_XMAX : (4 : ℚ) < constants.XMAX := by
  norm_num [constants.XMAX]

namespace piecewise

theorem le_neg_1V_eq (ctx : Ctx) (x : ℚ) (p : ℕ) :
    le_neg_1V ctx x p = (le_neg_1 ctx x p).value := by
  simp only [le_neg_1V, le_neg_1, chebyshev.evalV_eq]

theorem le_neg_10V_eq (ctx : Ctx) (x : ℚ) (p : ℕ) :
    le_neg_10V ctx x p = (le_neg_10 ctx x p).value := by
  simp only [le_neg_10V, le_neg_10, chebyshev.evalV_eq]

theorem le_neg_4V_eq (ctx : Ctx) (x : ℚ) (p : ℕ) :
    le_neg_4V ctx x p = (le_neg_4 ctx x p).value := by
  simp only [le_neg_4V, le_neg_4, chebyshev.evalV_eq]

theorem le_pos_1V_eq (ctx : Ctx) (x : ℚ) (p : ℕ) :
    le_pos_1V ctx x p = (le_pos_1 ctx x p).value := by
  simp only [le_pos_1V, le_pos_1, chebyshev.evalV_eq]

theorem le_pos_4V_eq (ctx : Ctx) (x : ℚ) (p : ℕ) :
    le_pos_4V ctx x p = (le_pos_4 ctx x p).value := by
  simp only [le_pos_4V, le_pos_4, chebyshev.evalV_eq]

theorem le_pos_maxV_eq (ctx : Ctx) (x : ℚ) (p : ℕ) :
    le_pos_maxV ctx x p = (le_pos_max ctx x p).value := by
  simp only [le_pos_maxV, le_pos_max, chebyshev.evalV_eq]

theorem min_clamp_lt {n : ℕ} (h0 : 0 < n) (p : ℕ) : min p (n - 1) < n :=
  Nat.lt_of_le_of_lt (Nat.min_le_right p (n - 1)) (Nat.sub_lt h0 Nat.one_pos)

theorem le_neg_1Checked_eq (ctx : Ctx) (x : ℚ) (p : ℕ)
    (h : 0 < ctx.E11.length) :
    le_neg_1Checked ctx x p = some (le_neg_1 ctx x p) := by
  simp only [le_neg_1Checked, le_neg_1,
    chebyshev.evalChecked_eq _ _ _ h (min_clamp_lt h p), Option.map_some']

theorem le_neg_10Checked_eq (ctx : Ctx) (x : ℚ) (p : ℕ) :
    le_neg_10Checked ctx x p = some (le_neg_10 ctx x p) := by
  have h : 0 < constants.AE11.length := by simp [constants.AE11]
  simp only [le_neg_10Checked, le_neg_10,
    chebyshev.evalChecked_eq _ _ _ h (min_clamp_lt h p), Option.map_some']

theorem le_neg_4Checked_eq (ctx : Ctx) (x : ℚ) (p : ℕ)
    (h : 0 < ctx.AE12.length) :
    le_neg_4Checked ctx x p = some (le_neg_4 ctx x p) := by
  simp only [le_neg_4Checked, le_neg_4,
    chebyshev.evalChecked_eq _ _ _ h (min_clamp_lt h p), Option.map_some']

theorem le_pos_1Checked_eq (ctx : Ctx) (x : ℚ) (p : ℕ)
    (h : 0 < ctx.E12.length) :
    le_pos_1Checked ctx x p = some (le_pos_1 ctx x p) := by
  simp only [le_pos_1Checked, le_pos_1,
    chebyshev.evalChecked_eq _ _ _ h (min_clamp_lt h p), Option.map_some']

theorem le_pos_4Checked_eq (ctx : Ctx) (x : ℚ) (p : ℕ)
    (h : 0 < ctx.AE13.length) :
    le_pos_4Checked ctx x p = some (le_pos_4 ctx x p) := by
  simp only [le_pos_4Checked, le_pos_4,
    chebyshev.evalChecked_eq _ _ _ h (min_clamp_lt h p), Option.map_some']

theorem le_pos_maxChecked_eq (ctx : Ctx) (x : ℚ) (p : ℕ)
    (h : 0 < ctx.AE14.length) :
    le_pos_maxChecked ctx x p = some (le_pos_max ctx x p) := by
  simp only [le_pos_maxChecked, le_pos_max,
    chebyshev.evalChecked_eq _ _ _ h (min_clamp_lt h p), Option.map_some']

end piecewise

namespace implementation

theorem negE1_error_char (ctx : Ctx) (x : ℚ) (p : ℕ) (h : HugeArgumentNeg) :
    negE1 ctx x p = .error h ↔ h = ⟨x⟩ ∧ x ≤ constants.NXMAX := by
  unfold negE1
  rcases lt_trichotomy x (-10) with h10 | h10 | h10
  · rw [fcmp_of_lt h10]
    rcases lt_trichotomy x constants.NXMAX with hX | hX | hX
    · rw [fcmp_of_lt hX]
      simp [hX.le, eq_comm]
    · rw [fcmp_of_eq hX]
      simp [hX.le, eq_comm]
    · rw [fcmp_of_gt hX]
      simp [not_le.mpr hX]
  · rw [fcmp_of_eq h10]
    have : ¬x ≤ constants.NXMAX :=
      not_le.mpr (by rw [h10]; exact NXMAX_lt_neg_ten)
    simp [this]
  · rw [fcmp_of_gt h10]
    have : ¬x ≤ constants.NXMAX :=
      not_le.mpr (lt_trans NXMAX_lt_neg_ten h10)
    simp [this]

theorem negE1_ok (ctx : Ctx) (x : ℚ) (p : ℕ) (hX : constants.NXMAX < x) :
    ∃ a, negE1 ctx x p = .ok a := by
  unfold negE1
  rcases lt_trichotomy x (-10) with h10 | h10 | h10
  · rw [fcmp_of_lt h10, fcmp_of_gt hX]
    exact ⟨_, rfl⟩
  · rw [fcmp_of_eq h10]
    exact ⟨_, rfl⟩
  · rw [fcmp_of_gt h10]
    exact ⟨_, rfl⟩

theorem posE1_error_char (ctx : Ctx) (x : ℚ) (p : ℕ) (h : HugeArgumentPos) :
    posE1 ctx x p = .error h ↔ h = ⟨x⟩ ∧ constants.XMAX ≤ x := by
  unfold posE1
  rcases lt_trichotomy x 4 with h4 | h4 | h4
  · rw [fcmp_of_lt h4]
    have : ¬constants.XMAX ≤ x := not_le.mpr (lt_trans h4 four_lt_XMAX)
    simp [this]
  · rw [fcmp_of_eq h4]
    have : ¬constants.XMAX ≤ x :=
      not_le.mpr (by rw [h4]; exact four_lt_XMAX)
    simp [this]
  · rw [fcmp_of_gt h4]
    rcases lt_trichotomy x constants.XMAX with hX | hX | hX
    · rw [fcmp_of_lt hX]
      simp [not_le.mpr hX]
    · rw [fcmp_of_eq hX]
      simp [hX.ge, eq_comm]
    · rw [fcmp_of_gt hX]
      simp [hX.le, eq_comm]

theorem posE1_ok (ctx : Ctx) (x : ℚ) (p : ℕ) (hX : x < constants.XMAX) :
    ∃ a, posE1 ctx x p = .ok a := by
  unfold posE1
  rcases lt_trichotomy x 4 with h4 | h4 | h4
  · rw [fcmp_of_lt h4]
    exact ⟨_, rfl⟩
  · rw [fcmp_of_eq h4]
    exact ⟨_, rfl⟩
  · rw [fcmp_of_gt h4, fcmp_of_lt hX]
    exact ⟨_, rfl⟩

theorem negE1V_eq (ctx : Ctx) (x : ℚ) (p : ℕ) :
    negE1V ctx x p = (negE1 ctx x p).map Approx.value := by
  unfold negE1V negE1
  cases h10 : fcmp x (-10) with
  | lt =>
      cases hX : fcmp x constants.NXMAX <;>
        simp [Except.map, piecewise.le_neg_10V_eq]
  | eq => simp [Except.map, piecewise.le_neg_10V_eq]
  | gt =>
      cases h4 : fcmp x (-4) with
      | lt => simp [Except.map, piecewise.le_neg_4V_eq]
      | eq => simp [Except.map, piecewise.le_neg_4V_eq]
      | gt =>
          cases h1 : fcmp x (-1) <;>
            simp [Except.map, piecewise.le_neg_1V_eq, piecewise.le_pos_1V_eq]

theorem posE1V_eq (ctx : Ctx) (x : ℚ) (p : ℕ) :
    posE1V ctx x p = (posE1 ctx x p).map Approx.value := by
  unfold posE1V posE1
  cases h4 : fcmp x 4 with
  | eq => simp [Except.map, piecewise.le_pos_4V_eq]
  | lt =>
      cases h1 : fcmp x 1 <;>
        simp [Except.map, piecewise.le_pos_1V_eq, piecewise.le_pos_4V_eq]
  | gt =>
      cases hX : fcmp x constants.XMAX <;>
        simp [Except.map, piecewise.le_pos_maxV_eq]

theorem E1V_eq (ctx : Ctx) (x : ℚ) (p : ℕ) :
    E1V ctx x p = (E1 ctx x p).map Approx.value := by
  unfold E1V E1
  cases h0 : fcmp x 0 with
  | lt =>
      rw [negE1V_eq]
      cases h : negE1 ctx x p <;> simp [Except.map, Except.mapError]
  | gt =>
      rw [posE1V_eq]
      cases h : posE1 ctx x p <;> simp [Except.map, Except.mapError]
  | eq => rfl

theorem negE1Checked_eq (ctx : Ctx) (x : ℚ) (p : ℕ)
    (hE11 : 0 < ctx.E11.length) (hE12 : 0 < ctx.E12.length)
    (hAE12 : 0 < ctx.AE12.length) :
    negE1Checked ctx x p = some (negE1 ctx x p) := by
  unfold negE1Checked negE1
  cases h10 : fcmp x (-10) with
  | lt =>
      cases hX : fcmp x constants.NXMAX <;>
        simp [piecewise.le_neg_10Checked_eq]
  | eq => simp [piecewise.le_neg_10Checked_eq]
  | gt =>
      cases h4 : fcmp x (-4) with
      | lt => simp [piecewise.le_neg_4Checked_eq ctx x p hAE12]
      | eq => simp [piecewise.le_neg_4Checked_eq ctx x p hAE12]
      | gt =>
          cases h1 : fcmp x (-1) <;>
            simp [piecewise.le_neg_1Checked_eq ctx x p hE11,
              piecewise.le_pos_1Checked_eq ctx x p hE12]

theorem posE1Checked_eq (ctx : Ctx) (x : ℚ) (p : ℕ)
    (hE12 : 0 < ctx.E12.length) (hAE13 : 0 < ctx.AE13.length)
    (hAE14 : 0 < ctx.AE14.length) :
    posE1Checked ctx x p = some (posE1 ctx x p) := by
  unfold posE1Checked posE1
  cases h4 : fcmp x 4 with
  | eq => simp [piecewise.le_pos_4Checked_eq ctx x p hAE13]
  | lt =>
      cases h1 : fcmp x 1 <;>
        simp [piecewise.le_pos_1Checked_eq ctx x p hE12,
          piecewise.le_pos_4Checked_eq ctx x p hAE13]
  | gt =>
      cases hX : fcmp x constants.XMAX <;>
        simp [piecewise.le_pos_maxChecked_eq ctx x p hAE14]

end implementation

/-- A concrete context used to exercise the theorems on explicit
inputs: singleton coefficient tables and the identity standing in for
the opaque transcendental functions. -/
def ctx0 : Ctx :=
  { exp := fun q => q, ln := fun q => q,
    E11 := [0], E12 := [0], AE12 := [0], AE13 := [0], AE14 := [0] }

/-- A concrete context whose AE12 table makes the (-10, -4] handler
return a result visibly different from the (-XMAX, -10] handler. -/
def ctx6 : Ctx :=
  { exp := fun q => q, ln := fun q => q,
    E11 := [0], E12 := [0], AE12 := [2], AE13 := [0], AE14 := [0] }

/-- C3 (counterexample): at the concrete table [1, 2] with truncation
order 0, the evaluator's returned error is not
machine_epsilon * e + the absolute value of c[order]: the code uses the
last table coefficient c[N - 1] = 2 instead of c[0] = 1. -/
theorem cheb_error_order_coefficient_cex :
    (chebyshev.eval [(1 : ℚ), 2] 0 0).error ≠
      constants.GSL_DBL_EPSILON * chebyshev.eAcc [(1 : ℚ), 2] 0 0 +
        fabs (([(1 : ℚ), 2]).getD 0 0) := by
  norm_num [chebyshev.eval, chebyshev.eAcc, chebyshev.go, fabs,
    constants.GSL_DBL_EPSILON]

/-- C3 (amended): for every coefficient list, truncation order and
evaluation point, the Chebyshev evaluator returns
error = machine_epsilon * e + the absolute value of the LAST table
coefficient c[N - 1], where e is the accumulated absolute-value sum of
the Clenshaw recurrence; the supplied truncation order affects e but
never the trailing coefficient term. -/
theorem cheb_error_formula (c : List ℚ) (x : ℚ) (o : ℕ) :
    (chebyshev.eval c x o).error =
      constants.GSL_DBL_EPSILON * chebyshev.eAcc c x o +
        fabs (c.getD (c.length - 1) 0) := rfl

/-- C9: the value returned by the Chebyshev evaluator, by E1 and by Ei
is identical between the build that computes error bounds and the build
that skips the error bookkeeping entirely. -/
theorem value_only_build_agrees (ctx : Ctx) (c : List ℚ) (x : ℚ) (o p : ℕ) :
    chebyshev.evalV c x o = (chebyshev.eval c x o).value ∧
    implementation.E1V ctx x p = (E1 ctx x p).map Approx.value ∧
    EiV ctx x p = (Ei ctx x p).map Approx.value := by
  refine ⟨chebyshev.evalV_eq c x o, implementation.E1V_eq ctx x p, ?_⟩
  unfold EiV Ei
  rw [show E1 ctx (-x) p = implementation.E1 ctx (-x) p from rfl,
    implementation.E1V_eq ctx (-x) p]
  cases hE : implementation.E1 ctx (-x) p <;> simp [Except.map]

/-- C10: for each of the six piecewise functions, when the supplied
maximum truncation order is at least the interval's own table length
minus one (so the clamp saturates), the bounded-precision build returns
the same Approx as the build that always uses the table's native
order. -/
theorem clamped_order_agrees_full (ctx : Ctx) (x : ℚ) (p : ℕ) :
    (ctx.E11.length - 1 ≤ p →
      piecewise.le_neg_1 ctx x p = piecewise.le_neg_1Full ctx x) ∧
    (constants.AE11.length - 1 ≤ p →
      piecewise.le_neg_10 ctx x p = piecewise.le_neg_10Full ctx x) ∧
    (ctx.AE12.length - 1 ≤ p →
      piecewise.le_neg_4 ctx x p = piecewise.le_neg_4Full ctx x) ∧
    (ctx.E12.length - 1 ≤ p →
      piecewise.le_pos_1 ctx x p = piecewise.le_pos_1Full ctx x) ∧
    (ctx.AE13.length - 1 ≤ p →
      piecewise.le_pos_4 ctx x p = piecewise.le_pos_4Full ctx x) ∧
    (ctx.AE14.length - 1 ≤ p →
      piecewise.le_pos_max ctx x p = piecewise.le_pos_maxFull ctx x) := by
  refine ⟨fun h => ?_, fun h => ?_, fun h => ?_, fun h => ?_, fun h => ?_,
    fun h => ?_⟩
  · simp [piecewise.le_neg_1, piecewise.le_neg_1Full, chebyshev.evalFull,
      min_eq_right h]
  · simp [piecewise.le_neg_10, piecewise.le_neg_10Full, chebyshev.evalFull,
      min_eq_right h]
  · simp [piecewise.le_neg_4, piecewise.le_neg_4Full, chebyshev.evalFull,
      min_eq_right h]
  · simp [piecewise.le_pos_1, piecewise.le_pos_1Full, chebyshev.evalFull,
      min_eq_right h]
  · simp [piecewise.le_pos_4, piecewise.le_pos_4Full, chebyshev.evalFull,
      min_eq_right h]
  · simp [piecewise.le_pos_max, piecewise.le_pos_maxFull, chebyshev.evalFull,
      min_eq_right h]

/-- C10 (witness): the clamping agreement at a concrete context, input
and maximum order 50 (at least every table length minus one). -/
theorem clamped_order_agrees_full_witness :
    piecewise.le_neg_1 ctx0 1 50 = piecewise.le_neg_1Full ctx0 1 ∧
    piecewise.le_neg_10 ctx0 1 50 = piecewise.le_neg_10Full ctx0 1 ∧
    piecewise.le_neg_4 ctx0 1 50 = piecewise.le_neg_4Full ctx0 1 ∧
    piecewise.le_pos_1 ctx0 1 50 = piecewise.le_pos_1Full ctx0 1 ∧
    piecewise.le_pos_4 ctx0 1 50 = piecewise.le_pos_4Full ctx0 1 ∧
    piecewise.le_pos_max ctx0 1 50 = piecewise.le_pos_maxFull ctx0 1 :=
  ⟨(clamped_order_agrees_full ctx0 1 50).1 (by decide),
    (clamped_order_agrees_full ctx0 1 50).2.1 (by decide),
    (clamped_order_agrees_full ctx0 1 50).2.2.1 (by decide),
    (clamped_order_agrees_full ctx0 1 50).2.2.2.1 (by decide),
    (clamped_order_agrees_full ctx0 1 50).2.2.2.2.1 (by decide),
    (clamped_order_agrees_full ctx0 1 50).2.2.2.2.2 (by decide)⟩

/-- C1 (counterexample): at x = NXMAX exactly, E1 returns
ArgumentTooNegative(NXMAX) although NXMAX < -XMAX is false, so the
error is not returned exactly when x < -XMAX. -/
theorem E1_strict_error_boundary_cex :
    ¬(E1 ctx0 constants.NXMAX 0 =
        .error (.ArgumentTooNegative constants.NXMAX) ↔
      constants.NXMAX < -constants.XMAX) := by
  intro h
  have h1 : E1 ctx0 constants.NXMAX 0 =
      .error (.ArgumentTooNegative constants.NXMAX) := by
    norm_num [E1, implementation.E1, implementation.negE1, fcmp,
      constants.NXMAX, constants.XMAX, Except.mapError]
  have h2 := h.mp h1
  norm_num [constants.NXMAX, constants.XMAX] at h2

/-- C1 (amended): for every nonzero (finite) input x, E1 returns Ok
when -XMAX < x < XMAX; it returns ArgumentTooNegative(x) exactly when
x LE -XMAX (the boundary itself errors, unlike the claim's strict
inequality), ArgumentTooPositive(x) exactly when x GE XMAX, and every
error is one of those two kinds carrying x itself. -/
theorem E1_domain_partition (ctx : Ctx) (x : ℚ) (p : ℕ) (hx : x ≠ 0) :
    (constants.NXMAX < x → x < constants.XMAX →
      ∃ a, E1 ctx x p = .ok a) ∧
    (E1 ctx x p = .error (.ArgumentTooNegative x) ↔
      x ≤ constants.NXMAX) ∧
    (E1 ctx x p = .error (.ArgumentTooPositive x) ↔
      constants.XMAX ≤ x) ∧
    ∀ er, E1 ctx x p = .error er →
      (er = .ArgumentTooNegative x ∧ x ≤ constants.NXMAX) ∨
      (er = .ArgumentTooPositive x ∧ constants.XMAX ≤ x) := by
  have hXpos : (0 : ℚ) < constants.XMAX := by norm_num [constants.XMAX]
  have hNneg : constants.NXMAX < 0 := by
    norm_num [constants.NXMAX, constants.XMAX]
  rcases hx.lt_or_lt with hneg | hpos
  · have hE : E1 ctx x p = (implementation.negE1 ctx x p).mapError
        fun h => Error.ArgumentTooNegative h.arg := by
      unfold E1 implementation.E1
      rw [fcmp_of_lt hneg]
    refine ⟨?_, ?_, ?_, ?_⟩
    · intro h1 _
      obtain ⟨a, ha⟩ := implementation.negE1_ok ctx x p h1
      exact ⟨a, by rw [hE, ha]; rfl⟩
    · constructor
      · intro h
        rw [hE] at h
        cases hres : implementation.negE1 ctx x p with
        | ok a => rw [hres] at h; exact absurd h (by simp [Except.mapError])
        | error e =>
            exact ((implementation.negE1_error_char ctx x p e).mp hres).2
      · intro h
        rw [hE,
          (implementation.negE1_error_char ctx x p ⟨x⟩).mpr ⟨rfl, h⟩]
        rfl
    · refine iff_of_false ?_ (not_le.mpr (lt_trans hneg hXpos))
      rw [hE]
      cases hres : implementation.negE1 ctx x p with
      | ok a => simp [Except.mapError]
      | error e => simp [Except.mapError]
    · intro er her
      rw [hE] at her
      cases hres : implementation.negE1 ctx x p with
      | ok a => rw [hres] at her; exact absurd her (by simp [Except.mapError])
      | error e =>
          rw [hres] at her
          obtain ⟨he, hle⟩ :=
            (implementation.negE1_error_char ctx x p e).mp hres
          subst he
          simp only [Except.mapError] at her
          exact Or.inl ⟨(Except.error.inj her).symm, hle⟩
  · have hE : E1 ctx x p = (implementation.posE1 ctx x p).mapError
        fun h => Error.ArgumentTooPositive h.arg := by
      unfold E1 implementation.E1
      rw [fcmp_of_gt hpos]
    refine ⟨?_, ?_, ?_, ?_⟩
    · intro _ h2
      obtain ⟨a, ha⟩ := implementation.posE1_ok ctx x p h2
      exact ⟨a, by rw [hE, ha]; rfl⟩
    · refine iff_of_false ?_ (not_le.mpr (lt_trans hNneg hpos))
      rw [hE]
      cases hres : implementation.posE1 ctx x p with
      | ok a => simp [Except.mapError]
      | error e => simp [Except.mapError]
    · constructor
      · intro h
        rw [hE] at h
        cases hres : implementation.posE1 ctx x p with
        | ok a => rw [hres] at h; exact absurd h (by simp [Except.mapError])
        | error e =>
            exact ((implementation.posE1_error_char ctx x p e).mp hres).2
      · intro h
        rw [hE,
          (implementation.posE1_error_char ctx x p ⟨x⟩).mpr ⟨rfl, h⟩]
        rfl
    · intro er her
      rw [hE] at her
      cases hres : implementation.posE1 ctx x p with
      | ok a => rw [hres] at her; exact absurd her (by simp [Except.mapError])
      | error e =>
          rw [hres] at her
          obtain ⟨he, hle⟩ :=
            (implementation.posE1_error_char ctx x p e).mp hres
          subst he
          simp only [Except.mapError] at her
          exact Or.inr ⟨(Except.error.inj her).symm, hle⟩

/-- C1 (witness): the amended domain partition instantiated at the
concrete nonzero input 1/2. -/
theorem E1_domain_partition_witness :
    (constants.NXMAX < (1 / 2 : ℚ) → (1 / 2 : ℚ) < constants.XMAX →
      ∃ a, E1 ctx0 (1 / 2) 0 = .ok a) ∧
    (E1 ctx0 (1 / 2) 0 = .error (.ArgumentTooNegative (1 / 2)) ↔
      (1 / 2 : ℚ) ≤ constants.NXMAX) ∧
    (E1 ctx0 (1 / 2) 0 = .error (.ArgumentTooPositive (1 / 2)) ↔
      constants.XMAX ≤ (1 / 2 : ℚ)) ∧
    ∀ er, E1 ctx0 (1 / 2) 0 = .error er →
      (er = .ArgumentTooNegative (1 / 2) ∧
        (1 / 2 : ℚ) ≤ constants.NXMAX) ∨
      (er = .ArgumentTooPositive (1 / 2) ∧
        constants.XMAX ≤ (1 / 2 : ℚ)) :=
  E1_domain_partition ctx0 (1 / 2) 0 (by norm_num)

/-- C2: whenever Ei(x) and E1(-x) both succeed, the value of Ei(x) is
the exact negation of the value of E1(-x), and the error bound is
passed through unchanged. -/
theorem Ei_value_is_neg_E1_value (ctx : Ctx) (x : ℚ) (p : ℕ)
    (a b : Approx) (ha : Ei ctx x p = .ok a)
    (hb : E1 ctx (-x) p = .ok b) :
    a.value = -b.value ∧ a.error = b.error := by
  unfold Ei at ha
  rw [hb] at ha
  obtain rfl : ({ error := b.error, value := -b.value } : Approx) = a := by
    simpa [Except.map] using ha
  exact ⟨rfl, rfl⟩

/-- C2 (witness): the negation identity at the concrete input x = 1
(routed through the logarithmic branch at -1). -/
theorem Ei_value_is_neg_E1_value_witness :
    Ei ctx0 1 0 = .ok ⟨3 * constants.GSL_DBL_EPSILON, 1⟩ ∧
    E1 ctx0 (-1) 0 = .ok ⟨3 * constants.GSL_DBL_EPSILON, -1⟩ ∧
    ((⟨3 * constants.GSL_DBL_EPSILON, 1⟩ : Approx).value =
        -(⟨3 * constants.GSL_DBL_EPSILON, -1⟩ : Approx).value ∧
      (⟨3 * constants.GSL_DBL_EPSILON, 1⟩ : Approx).error =
        (⟨3 * constants.GSL_DBL_EPSILON, -1⟩ : Approx).error) :=
  ⟨by norm_num [Ei, E1, implementation.E1, implementation.negE1,
      piecewise.le_neg_1, chebyshev.eval, chebyshev.go, fcmp, fabs, ctx0,
      constants.GSL_DBL_EPSILON, Except.map, Except.mapError],
    by norm_num [E1, implementation.E1, implementation.negE1,
      piecewise.le_neg_1, chebyshev.eval, chebyshev.go, fcmp, fabs, ctx0,
      constants.GSL_DBL_EPSILON, Except.map, Except.mapError],
    Ei_value_is_neg_E1_value ctx0 1 0 _ _
      (by norm_num [Ei, E1, implementation.E1, implementation.negE1,
        piecewise.le_neg_1, chebyshev.eval, chebyshev.go, fcmp, fabs, ctx0,
        constants.GSL_DBL_EPSILON, Except.map, Except.mapError])
      (by norm_num [E1, implementation.E1, implementation.negE1,
        piecewise.le_neg_1, chebyshev.eval, chebyshev.go, fcmp, fabs, ctx0,
        constants.GSL_DBL_EPSILON, Except.map, Except.mapError])⟩

/-- C4: the checked semantics never signals undefined behaviour: the
checked Chebyshev evaluator equals the unchecked one whenever the table
is non-empty and the order is in bounds, and the fully checked E1
router (checked comparisons and checked coefficient accesses) equals
the unchecked router on every nonzero input with non-empty tables. -/
theorem E1_no_ub_no_oob (ctx : Ctx) (c : List ℚ) (x : ℚ) (o p : ℕ) :
    (0 < c.length → o < c.length →
      chebyshev.evalChecked c x o = some (chebyshev.eval c x o)) ∧
    (x ≠ 0 → 0 < ctx.E11.length → 0 < ctx.E12.length →
      0 < ctx.AE12.length → 0 < ctx.AE13.length → 0 < ctx.AE14.length →
      implementation.E1Checked ctx x p = some (E1 ctx x p)) := by
  constructor
  · exact fun h0 ho => chebyshev.evalChecked_eq c x o h0 ho
  · intro hx h1 h2 h3 h4 h5
    unfold implementation.E1Checked E1 implementation.E1
    rcases hx.lt_or_lt with h | h
    · rw [fcmp_of_lt h, implementation.negE1Checked_eq ctx x p h1 h2 h3]
      rfl
    · rw [fcmp_of_gt h, implementation.posE1Checked_eq ctx x p h2 h4 h5]
      rfl

/-- C4 (witness): the checked evaluator and the checked router agree
with the unchecked ones at concrete inputs. -/
theorem E1_no_ub_no_oob_witness :
    chebyshev.evalChecked [(1 : ℚ)] 1 0 = some (chebyshev.eval [(1 : ℚ)] 1 0) ∧
    implementation.E1Checked ctx0 1 0 = some (E1 ctx0 1 0) :=
  ⟨(E1_no_ub_no_oob ctx0 [(1 : ℚ)] 1 0 0).1 (by decide) (by decide),
    (E1_no_ub_no_oob ctx0 [(1 : ℚ)] 1 0 0).2 (by norm_num) (by decide)
      (by decide) (by decide) (by decide) (by decide)⟩

/-- C6 (counterexample): at exactly x = -10 the negative router does
not use the (-10, -4] handler le_neg_4: with a context whose AE12 table
makes le_neg_4 differ visibly, the router's result is le_neg_10's, not
le_neg_4's. -/
theorem router_tie_at_neg_ten_cex :
    ¬(implementation.negE1 ctx6 (-10) 0 =
        .ok (piecewise.le_neg_4 ctx6 (-10) 0)) := by
  have h1 : implementation.negE1 ctx6 (-10) 0 =
      .ok (piecewise.le_neg_10 ctx6 (-10) 0) := by
    norm_num [implementation.negE1, fcmp]
  rw [h1]
  intro h
  have h2 := Except.ok.inj h
  have h3 : (piecewise.le_neg_10 ctx6 (-10) 0).value =
      (piecewise.le_neg_4 ctx6 (-10) 0).value := by rw [h2]
  norm_num [piecewise.le_neg_10, piecewise.le_neg_4, ctx6, chebyshev.eval,
    chebyshev.go, fabs, constants.AE11, constants.GSL_DBL_EPSILON] at h3

/-- C6 (amended): a tie with an interior domain boundary belongs to the
interval having that boundary as its upper (closed) endpoint; in
particular E1 at exactly x = -10 is computed by le_neg_10, the handler
owning (-XMAX, -10], not by the (-10, -4] handler, while on the
positive side x = 1 and x = 4 go to the interval closer to zero. -/
theorem router_tie_upper_closed (ctx : Ctx) (p : ℕ) :
    implementation.negE1 ctx (-10) p =
      .ok (piecewise.le_neg_10 ctx (-10) p) ∧
    implementation.negE1 ctx (-4) p =
      .ok (piecewise.le_neg_4 ctx (-4) p) ∧
    implementation.negE1 ctx (-1) p =
      .ok (piecewise.le_neg_1 ctx (-1) p) ∧
    implementation.posE1 ctx 1 p = .ok (piecewise.le_pos_1 ctx 1 p) ∧
    implementation.posE1 ctx 4 p = .ok (piecewise.le_pos_4 ctx 4 p) := by
  refine ⟨?_, ?_, ?_, ?_, ?_⟩
  · unfold implementation.negE1
    rw [fcmp_of_eq (rfl : (-10 : ℚ) = -10)]
  · unfold implementation.negE1
    rw [fcmp_of_gt (show (-10 : ℚ) < -4 by norm_num),
      fcmp_of_eq (rfl : (-4 : ℚ) = -4)]
  · unfold implementation.negE1
    rw [fcmp_of_gt (show (-10 : ℚ) < -1 by norm_num),
      fcmp_of_gt (show (-4 : ℚ) < -1 by norm_num),
      fcmp_of_eq (rfl : (-1 : ℚ) = -1)]
  · unfold implementation.posE1
    rw [fcmp_of_lt (show (1 : ℚ) < 4 by norm_num),
      fcmp_of_eq (rfl : (1 : ℚ) = 1)]
  · unfold implementation.posE1
    rw [fcmp_of_eq (rfl : (4 : ℚ) = 4)]

/-- C7 (counterexample): for x = -1/2 in (-1, 0) the router's result is
not le_pos_1 applied to the sign-flipped input 1/2 (it is le_pos_1
applied to x itself, which differs). -/
theorem neg_open_unit_sign_flip_cex :
    ¬(implementation.negE1 ctx0 (-(1 / 2)) 0 =
        .ok (piecewise.le_pos_1 ctx0 (1 / 2) 0)) := by
  have h1 : implementation.negE1 ctx0 (-(1 / 2)) 0 =
      .ok (piecewise.le_pos_1 ctx0 (-(1 / 2)) 0) := by
    norm_num [implementation.negE1, fcmp]
  rw [h1]
  intro h
  have h2 := Except.ok.inj h
  have h3 : (piecewise.le_pos_1 ctx0 (-(1 / 2)) 0).value =
      (piecewise.le_pos_1 ctx0 (1 / 2) 0).value := by rw [h2]
  norm_num [piecewise.le_pos_1, ctx0, chebyshev.eval, chebyshev.go, fabs,
    constants.GSL_DBL_EPSILON] at h3

/-- C7 (amended): for every x in (-1, 0) the router computes E1 by
invoking le_pos_1 on x itself (retagged from Negative to NonZero, not
sign-flipped); le_pos_1 is the shared handler of the punctured interval
(-1, 1) and takes the absolute value internally for its log term. -/
theorem neg_open_unit_uses_le_pos_1 (ctx : Ctx) (x : ℚ) (p : ℕ)
    (h1 : -1 < x) (h0 : x < 0) :
    implementation.negE1 ctx x p = .ok (piecewise.le_pos_1 ctx x p) := by
  unfold implementation.negE1
  rw [fcmp_of_gt (show (-10 : ℚ) < x from
      lt_trans (by norm_num) h1),
    fcmp_of_gt (show (-4 : ℚ) < x from lt_trans (by norm_num) h1),
    fcmp_of_gt h1]

/-- C7 (witness): the (-1, 0) routing at the concrete input -1/2. -/
theorem neg_open_unit_uses_le_pos_1_witness :
    implementation.negE1 ctx0 (-(1 / 2)) 0 =
      .ok (piecewise.le_pos_1 ctx0 (-(1 / 2)) 0) :=
  neg_open_unit_uses_le_pos_1 ctx0 (-(1 / 2)) 0 (by norm_num) (by norm_num)

/-- C8 (counterexample): for x = 800 (beyond XMAX), the top-level Ei
does not report 800 as too positive: it forwards the error of E1(-800)
unchanged, reporting -800 as too negative. -/
theorem Ei_error_passthrough_cex :
    Ei ctx0 800 0 = .error (.ArgumentTooNegative (-800)) ∧
    ¬(Ei ctx0 800 0 = .error (.ArgumentTooPositive 800)) := by
  have h : Ei ctx0 800 0 = .error (.ArgumentTooNegative (-800)) := by
    norm_num [Ei, E1, implementation.E1, implementation.negE1, fcmp,
      constants.NXMAX, constants.XMAX, Except.map, Except.mapError]
  exact ⟨h, by rw [h]; simp⟩

/-- C8 (amended): the sign-specific wrappers neg::Ei and pos::Ei map a
domain error on -x back into the caller's sign convention, reporting
the original argument x; the top-level Ei instead forwards the error of
E1(-x) unchanged, so a too-large positive x is reported as -x being too
negative. -/
theorem signed_Ei_error_sign_flip (ctx : Ctx) (x : ℚ) (p : ℕ) :
    (constants.XMAX ≤ x → posEi ctx x p = .error ⟨x⟩) ∧
    (x ≤ constants.NXMAX → negEi ctx x p = .error ⟨x⟩) ∧
    (constants.XMAX ≤ x →
      Ei ctx x p = .error (.ArgumentTooNegative (-x))) := by
  refine ⟨?_, ?_, ?_⟩
  · intro h
    have h' : -x ≤ constants.NXMAX := by
      unfold constants.NXMAX
      linarith
    unfold posEi
    rw [(implementation.negE1_error_char ctx (-x) p ⟨-x⟩).mpr ⟨rfl, h'⟩]
    simp [Except.map, Except.mapError]
  · intro h
    have h' : constants.XMAX ≤ -x := by
      unfold constants.NXMAX at h
      linarith
    unfold negEi
    rw [(implementation.posE1_error_char ctx (-x) p ⟨-x⟩).mpr ⟨rfl, h'⟩]
    simp [Except.map, Except.mapError]
  · intro h
    have h' : -x ≤ constants.NXMAX := by
      unfold constants.NXMAX
      linarith
    have hneg : -x < 0 := lt_of_le_of_lt h' (by
      norm_num [constants.NXMAX, constants.XMAX])
    unfold Ei E1 implementation.E1
    rw [fcmp_of_lt hneg,
      (implementation.negE1_error_char ctx (-x) p ⟨-x⟩).mpr ⟨rfl, h'⟩]
    rfl

/-- C8 (witness): the sign-flip mapping of the one-sided wrappers and
the pass-through of the top-level Ei at the concrete inputs 800 and
-800. -/
theorem signed_Ei_error_sign_flip_witness :
    posEi ctx0 800 0 = .error ⟨800⟩ ∧
    negEi ctx0 (-800) 0 = .error ⟨-800⟩ ∧
    Ei ctx0 800 0 = .error (.ArgumentTooNegative (-800)) :=
  ⟨(signed_Ei_error_sign_flip ctx0 800 0).1
      (by norm_num [constants.XMAX]),
    (signed_Ei_error_sign_flip ctx0 (-800) 0).2.1
      (by norm_num [constants.NXMAX, constants.XMAX]),
    (signed_Ei_error_sign_flip ctx0 800 0).2.2
      (by norm_num [constants.XMAX])⟩

end ExpInt
